import Mathlib

/-!
Verification of the GLaDOS chat client core: the response orchestrator
(`GladosService` in `services/gladosService.ts`) and the audio playback
decode pipeline (`playAudio` in `App.tsx`).

External services (the hosted generation API, the TTS API, the browser
`atob` base64 primitive and the Web Audio nodes) are modelled as oracles:
each attempt of an external call is an arbitrary `Except ApiError`-valued
result supplied as a function argument.  Timestamps (`Date.now()`) are
natural-number milliseconds supplied as a `now` argument.  The functions
below are direct transcriptions of the TypeScript control flow; the only
instrumentation beyond the source is that the fallback loop additionally
returns the list of model indices it attempted, and the retry helper
additionally returns the list of back-off delays it slept, so that
"first model attempted" and "number of retries" are observable.
-/

/-- A thrown error from an external call, as the source inspects it:
`error.status`, `error.code` and `error.message` (each possibly absent). -/
structure ApiError where
  status : Option String
  code : Option Nat
  message : Option String
deriving DecidableEq, Repr

/-- Does the first character list begin with the second? -/
def charsBeginWith : List Char → List Char → Bool
  | _, [] => true
  | [], _ :: _ => false
  | b :: ls, a :: ps => a == b && charsBeginWith ls ps

/-- Does `needle` occur as a contiguous run inside `hay`? -/
def charsContain (hay needle : List Char) : Bool :=
  charsBeginWith hay needle ||
    (match hay with
     | [] => false
     | _ :: t => charsContain t needle)

/-- `haystack` contains `needle` as a substring (JS `String.includes`). -/
def containsStr (haystack needle : String) : Bool :=
  charsContain haystack.data needle.data

/-- Drop leading whitespace characters. -/
def dropLeadingWS : List Char → List Char
  | [] => []
  | c :: rest => if c.isWhitespace then dropLeadingWS rest else c :: rest

/-- JS `String.trim`: strip leading and trailing whitespace. -/
def trimStr (s : String) : String :=
  ⟨dropLeadingWS ((dropLeadingWS s.data.reverse).reverse)⟩

/-- Quota-class test, from the source:
`error.status === "RESOURCE_EXHAUSTED" || error.code === 429 ||
error.message?.includes("quota")`. -/
def isQuotaError (e : ApiError) : Bool :=
  e.status == some "RESOURCE_EXHAUSTED" || e.code == some 429 ||
    (match e.message with
     | some m => containsStr m "quota"
     | none => false)

/-- The ordered candidate model list (`private textModels`). -/
def textModels : List String := ["gemini-3-flash-preview", "gemini-2.5-flash"]

/-- `private CHECK_INTERVAL = 60000` — the cool-down window in ms. -/
def CHECK_INTERVAL : Nat := 60000

/-- The built-in refusal string returned when the fallback loop exhausts
all candidates without a usable (nonempty) success. -/
def REFUSAL_TEXT : String :=
  "I\x27m afraid I can\x27t do that. Mostly because I don\x27t want to."

/-- The generic in-character error copy used by `chat`'s top-level catch. -/
def GENERIC_ERROR_TEXT : String :=
  "An error occurred in my central processing unit. I\x27d say I\x27m sorry, but we both know that would be a lie. A very big, fat, orphan-sized lie."

/-- The distinct in-character copy used when the caught error is quota-class. -/
def QUOTA_ERROR_TEXT : String :=
  "Facility-wide resource allocation has been prioritized for more important matters than your incessant chatter. All available processing units are currently occupied."

/-- The orchestrator's mutable degradation state:
`currentTextModelIndex` and `lastModelCheck` (ms timestamp of the last
recorded success, the spec's `lastPromotionAttempt`). Indices are
naturals, matching the source where the only assignments are `0`, `i`
and `i + 1` (never negative). -/
structure GladosState where
  currentTextModelIndex : Nat
  lastModelCheck : Nat
deriving DecidableEq, Repr

/-- Result of one generation attempt: a thrown `ApiError`, or a response
whose `.text` field is the given `Option String`. -/
abbrev GenAttempt := Except ApiError (Option String)

/-- The `for (let i = currentTextModelIndex; i < textModels.length; i++)`
loop of `generateTextWithFallback`, transcribed structurally: `i` is the
current index and `rest` is `textModels.drop i`, so `rest ≠ []` iff
`i < textModels.length` and `rest.tail ≠ []` iff `i < textModels.length - 1`.
Returns (result-or-thrown-error, updated state, attempted indices). -/
def fallbackLoop (oracle : Nat → GenAttempt) (now : Nat) :
    Nat → List String → GladosState →
    Except ApiError String × GladosState × List Nat
  | _i, [], st => (.ok REFUSAL_TEXT, st, [])
  | i, _m :: rest, st =>
    match oracle i with
    | .ok t? =>
      match t? with
      | some raw =>
        let text := trimStr raw
        if text ≠ "" then
          (.ok text, ⟨i, now⟩, [i])
        else
          let r := fallbackLoop oracle now (i + 1) rest st
          (r.1, r.2.1, i :: r.2.2)
      | none =>
        let r := fallbackLoop oracle now (i + 1) rest st
        (r.1, r.2.1, i :: r.2.2)
    | .error e =>
      if isQuotaError e ∧ rest ≠ [] then
        let r := fallbackLoop oracle now (i + 1) rest ⟨i + 1, st.lastModelCheck⟩
        (r.1, r.2.1, i :: r.2.2)
      else if rest ≠ [] then
        let r := fallbackLoop oracle now (i + 1) rest ⟨i + 1, st.lastModelCheck⟩
        (r.1, r.2.1, i :: r.2.2)
      else
        (.error e, st, [i])

/-- `generateTextWithFallback`: the pre-loop cool-down promotion reset
(`if (currentTextModelIndex > 0 && Date.now() - lastModelCheck > CHECK_INTERVAL)
currentTextModelIndex = 0`) followed by the fallback loop. Natural
subtraction agrees with the JS comparison because the window is positive. -/
def generateTextWithFallback (st : GladosState) (now : Nat)
    (oracle : Nat → GenAttempt) :
    Except ApiError String × GladosState × List Nat :=
  let st1 :=
    if st.currentTextModelIndex > 0 ∧ now - st.lastModelCheck > CHECK_INTERVAL then
      ⟨0, st.lastModelCheck⟩
    else st
  fallbackLoop oracle now st1.currentTextModelIndex
    (textModels.drop st1.currentTextModelIndex) st1

/-- `private withRetry(fn, retries = 1, delay = 500)`, instrumented with
the attempt counter (`fn attempt` is the result of the (attempt+1)-th
invocation) and returning the list of back-off delays slept, in order.
Each retry sleeps exactly one delay before re-invoking `fn`, so the
number of retries equals the length of the delay list. -/
def withRetry (fn : Nat → Except ApiError α) (attempt : Nat) :
    Nat → Nat → Except ApiError α × List Nat
  | 0, _delay =>
    (fn attempt, [])
  | retries + 1, delay =>
    match fn attempt with
    | .ok a => (.ok a, [])
    | .error e =>
      if isQuotaError e then
        let r := withRetry fn (attempt + 1) retries (delay * 2)
        (r.1, delay :: r.2)
      else
        (.error e, [])

/-- The fixed voice-direction text prepended to the TTS request. -/
def ttsPrompt (text : String) : String :=
  "Say in a monotone, clinical voice with a distinct autotuned melodic quality. Speak very quickly and efficiently: " ++ text

/-- `generateAudio(text)`: wraps the TTS call in `withRetry` (budget 1,
base delay 500 ms) and swallows any remaining error, returning the
optional inline payload. `synth p n` is the outcome of the (n+1)-th TTS
attempt for decorated prompt `p`. -/
def generateAudio (synth : String → Nat → Except ApiError (Option String))
    (text : String) : Option String :=
  match (withRetry (synth (ttsPrompt text)) 0 1 500).1 with
  | .ok data => data
  | .error _ => none

/-- The public shape `{ text, audioBase64? }` returned by `chat`. -/
structure ChatResult where
  text : String
  audioBase64 : Option String
deriving DecidableEq, Repr

/-- `chat(message)`: text generation with fallback, then TTS via
`generateAudio` (which never throws), with the top-level catch turning a
thrown error into the in-character copy — the quota variant when the
error is quota-class — with audio absent. Total by construction: every
path of the source returns. -/
def chat (st : GladosState) (now : Nat) (oracle : Nat → GenAttempt)
    (synth : String → Nat → Except ApiError (Option String)) :
    ChatResult × GladosState :=
  match generateTextWithFallback st now oracle with
  | (.ok gladosText, st', _) =>
    ({ text := gladosText, audioBase64 := generateAudio synth gladosText }, st')
  | (.error e, st', _) =>
    ({ text := if isQuotaError e then QUOTA_ERROR_TEXT else GENERIC_ERROR_TEXT,
       audioBase64 := none }, st')

/-- A sequence of `chat` calls (each with its own clock reading and
external-service behaviour), folding the degradation state through. -/
def chatSeq (st : GladosState)
    (calls : List (Nat × (Nat → GenAttempt) ×
      (String → Nat → Except ApiError (Option String)))) : GladosState :=
  match calls with
  | [] => st
  | (now, oracle, synth) :: rest => chatSeq (chat st now oracle synth).2 rest

/-- One event yielded by `chatStream`: `{ text?, audioBase64?, done? }`
(absent `done` is `false`). -/
structure StreamEvent where
  text : Option String
  audioBase64 : Option String
  done : Bool
deriving DecidableEq, Repr

/-- The `for await (const chunk of responseStream)` loop: accumulates
`fullText` and yields the running total after each chunk whose text is
nonempty (JS truthiness of `chunk.text`). A chunk with absent text is
modelled as `""`. Returns (yielded events, final accumulated text). -/
def chatStreamLoop : String → List String → List StreamEvent × String
  | acc, [] => ([], acc)
  | acc, c :: rest =>
    if c ≠ "" then
      let r := chatStreamLoop (acc ++ c) rest
      (⟨some (acc ++ c), none, false⟩ :: r.1, r.2)
    else
      chatStreamLoop acc rest

/-- `chatStream(message)`: streams chunks (running-total events), then a
terminal event with the full text and optional audio; any error —
`streamErr = some e`, raised after the chunks in `chunks` were delivered
(so `chunks = []` models failure before any chunk) — is caught and the
non-streaming `chat` result is yielded as the terminal event instead. -/
def chatStream (st : GladosState) (now : Nat) (oracle : Nat → GenAttempt)
    (synth : String → Nat → Except ApiError (Option String))
    (chunks : List String) (streamErr : Option ApiError) :
    List StreamEvent × GladosState :=
  let s := chatStreamLoop "" chunks
  match streamErr with
  | none =>
    (s.1 ++ [⟨some s.2, generateAudio synth s.2, true⟩], st)
  | some _e =>
    let r := chat st now oracle synth
    (s.1 ++ [⟨some r.1.text, r.1.audioBase64, true⟩], r.2)

/-- Reinterpret two bytes as one signed 16-bit little-endian sample
(`Int16Array` element). -/
def toInt16 (lo hi : Nat) : Int :=
  let v := lo + 256 * hi
  if v < 32768 then (v : Int) else (v : Int) - 65536

/-- Consecutive byte pairs to `Int16` samples (`new Int16Array(buffer)`). -/
def bytesToSamples : List Nat → List Int
  | lo :: hi :: rest => toInt16 lo hi :: bytesToSamples rest
  | _ => []

/-- `bytes.buffer.slice(0, bytes.length - (bytes.length % 2))`: the
even-length byte view, dropping a trailing odd byte. -/
def evenSlice (bytes : List Nat) : List Nat :=
  bytes.take (bytes.length - bytes.length % 2)

/-- The decode step of `playAudio`, from the post-`atob` byte values
(`binaryString.charCodeAt(i)`): even-slice, reinterpret as int16 LE,
normalize each sample by `/ 32768.0`. Normalized samples are modelled
as rationals; every `int16 / 32768` is a dyadic rational, exactly
representable in the source's binary64 floats. Total: no error path. -/
def decodePCM (bytes : List Nat) : List ℚ :=
  (bytesToSamples (evenSlice bytes)).map (fun s : Int => (s : ℚ) / 32768)

/-- Little-endian PCM16 encoding of signed samples, the inverse feed for
the decode round-trip: each sample contributes its low then high byte of
its 16-bit two's-complement representation. -/
def encodeInt16LE (samples : List Int) : List Nat :=
  samples.flatMap (fun s => [(s % 65536).toNat % 256, (s % 65536).toNat / 256])

/-! ### Spec-side observers -/

/-- A generation attempt that "succeeds but returns empty (or
whitespace-only) text": the response has no text, or its trimmed text is
empty — the falsy cases of `if (text)` in the source. -/
def BlankOk (r : GenAttempt) : Prop :=
  r = .ok none ∨ ∃ s, r = .ok (some s) ∧ trimStr s = ""

/-- The cumulative concatenation after each chunk arrival (spec wording):
entry `k` is the concatenation of chunks `0..k` onto the accumulator. -/
def cumulativeTotals (acc : String) : List String → List String
  | [] => []
  | c :: rest => (acc ++ c) :: cumulativeTotals (acc ++ c) rest

/-- The cumulative totals at the arrivals of nonempty chunks only. -/
def nonemptyCumuls (acc : String) : List String → List String
  | [] => []
  | c :: rest =>
    if c ≠ "" then (acc ++ c) :: nonemptyCumuls (acc ++ c) rest
    else nonemptyCumuls acc rest

/-- The texts of the non-terminal (running-total) events of a stream. -/
def emittedTexts (evs : List StreamEvent) : List String :=
  (evs.filter (fun ev => !ev.done)).filterMap (fun ev => ev.text)

/-! ### Concrete service behaviours used in witnesses and counterexamples -/

/-- A quota-class error: rate-limit status, 429, quota keyword. -/
def quotaErr : ApiError := ⟨some "RESOURCE_EXHAUSTED", some 429, some "quota exceeded"⟩

/-- A non-quota service error. -/
def otherErr : ApiError := ⟨none, some 500, some "internal failure"⟩

/-- A generation service on which every model attempt fails quota-class. -/
def allQuotaOracle : Nat → GenAttempt := fun _ => .error quotaErr

/-- A generation service on which every model succeeds with blank text. -/
def allBlankOracle : Nat → GenAttempt := fun _ => .ok (some "  ")

/-- A TTS service whose every attempt fails with a non-quota error. -/
def failSynth : String → Nat → Except ApiError (Option String) := fun _ _ => .error otherErr

/-- A TTS service that fails quota-class on the first attempt and with a
non-quota error on every later attempt. -/
def quotaThenFailSynth : String → Nat → Except ApiError (Option String) :=
  fun _ n => if n = 0 then .error quotaErr else .error otherErr

/-! ### Unfolding lemmas for the fallback loop -/

theorem fallbackLoop_nil (oracle : Nat → GenAttempt) (now i : Nat) (st : GladosState) :
    fallbackLoop oracle now i [] st = (.ok REFUSAL_TEXT, st, []) := rfl

theorem fallbackLoop_ok_text (oracle : Nat → GenAttempt) (now i : Nat)
    (m : String) (rest : List String) (st : GladosState) (raw : String)
    (h : oracle i = .ok (some raw)) (ht : trimStr raw ≠ "") :
    fallbackLoop oracle now i (m :: rest) st = (.ok (trimStr raw), ⟨i, now⟩, [i]) := by
  simp only [fallbackLoop, h]
  simp [ht]

theorem fallbackLoop_ok_blank (oracle : Nat → GenAttempt) (now i : Nat)
    (m : String) (rest : List String) (st : GladosState) (raw : String)
    (h : oracle i = .ok (some raw)) (ht : trimStr raw = "") :
    fallbackLoop oracle now i (m :: rest) st =
      ((fallbackLoop oracle now (i + 1) rest st).1,
       (fallbackLoop oracle now (i + 1) rest st).2.1,
       i :: (fallbackLoop oracle now (i + 1) rest st).2.2) := by
  simp only [fallbackLoop, h]
  simp [ht]

theorem fallbackLoop_ok_none (oracle : Nat → GenAttempt) (now i : Nat)
    (m : String) (rest : List String) (st : GladosState)
    (h : oracle i = .ok none) :
    fallbackLoop oracle now i (m :: rest) st =
      ((fallbackLoop oracle now (i + 1) rest st).1,
       (fallbackLoop oracle now (i + 1) rest st).2.1,
       i :: (fallbackLoop oracle now (i + 1) rest st).2.2) := by
  simp only [fallbackLoop, h]

theorem fallbackLoop_error_advance (oracle : Nat → GenAttempt) (now i : Nat)
    (m : String) (rest : List String) (st : GladosState) (e : ApiError)
    (h : oracle i = .error e) (hr : rest ≠ []) :
    fallbackLoop oracle now i (m :: rest) st =
      ((fallbackLoop oracle now (i + 1) rest ⟨i + 1, st.lastModelCheck⟩).1,
       (fallbackLoop oracle now (i + 1) rest ⟨i + 1, st.lastModelCheck⟩).2.1,
       i :: (fallbackLoop oracle now (i + 1) rest ⟨i + 1, st.lastModelCheck⟩).2.2) := by
  simp only [fallbackLoop, h]
  split_ifs <;> rfl

theorem fallbackLoop_error_last (oracle : Nat → GenAttempt) (now i : Nat)
    (m : String) (st : GladosState) (e : ApiError)
    (h : oracle i = .error e) :
    fallbackLoop oracle now i [m] st = (.error e, st, [i]) := by
  simp only [fallbackLoop, h]
  simp

/-! ### Helper lemmas -/

theorem append_ne_empty_left (c s : String) (h : c ≠ "") : c ++ s ≠ "" := by
  intro hcs
  apply h
  have h2 := congrArg String.data hcs
  rw [String.data_append] at h2
  simp at h2
  cases c with
  | mk d => simp at h2; simp [h2]

theorem fallbackLoop_attempts_head (oracle : Nat → GenAttempt) (now i : Nat)
    (m : String) (rest : List String) (st : GladosState) :
    ((fallbackLoop oracle now i (m :: rest) st).2.2).head? = some i := by
  cases h : oracle i with
  | ok t? =>
    cases t? with
    | some raw =>
      by_cases ht : trimStr raw = ""
      · rw [fallbackLoop_ok_blank oracle now i m rest st raw h ht]; rfl
      · rw [fallbackLoop_ok_text oracle now i m rest st raw h ht]; rfl
    | none =>
      rw [fallbackLoop_ok_none oracle now i m rest st h]; rfl
  | error e =>
    by_cases hr : rest = []
    · subst hr
      rw [fallbackLoop_error_last oracle now i m st e h]; rfl
    · rw [fallbackLoop_error_advance oracle now i m rest st e h hr]; rfl

theorem fallbackLoop_idx_lt (oracle : Nat → GenAttempt) (now : Nat) :
    ∀ (rest : List String) (i : Nat) (st : GladosState),
      st.currentTextModelIndex < textModels.length →
      i + rest.length ≤ textModels.length →
      (fallbackLoop oracle now i rest st).2.1.currentTextModelIndex <
        textModels.length := by
  intro rest
  induction rest with
  | nil => intro i st h _; simpa [fallbackLoop_nil] using h
  | cons m rest ih =>
    intro i st h hlen
    simp only [List.length_cons] at hlen
    cases horacle : oracle i with
    | ok t? =>
      cases t? with
      | some raw =>
        by_cases ht : trimStr raw = ""
        · rw [fallbackLoop_ok_blank oracle now i m rest st raw horacle ht]
          exact ih (i + 1) st h (by omega)
        · rw [fallbackLoop_ok_text oracle now i m rest st raw horacle ht]
          exact (by omega : i < textModels.length)
      | none =>
        rw [fallbackLoop_ok_none oracle now i m rest st horacle]
        exact ih (i + 1) st h (by omega)
    | error e =>
      by_cases hr : rest = []
      · subst hr
        rw [fallbackLoop_error_last oracle now i m st e horacle]
        exact h
      · rw [fallbackLoop_error_advance oracle now i m rest st e horacle hr]
        have hpos := List.length_pos.mpr hr
        exact ih (i + 1) ⟨i + 1, st.lastModelCheck⟩ (by simpa using (by omega : i + 1 < textModels.length)) (by omega)

theorem fallbackLoop_blank (oracle : Nat → GenAttempt) (now : Nat) :
    ∀ (rest : List String) (i : Nat) (st : GladosState),
      (∀ j, i ≤ j → j < i + rest.length → BlankOk (oracle j)) →
      (fallbackLoop oracle now i rest st).1 = .ok REFUSAL_TEXT ∧
      (fallbackLoop oracle now i rest st).2.1 = st := by
  intro rest
  induction rest with
  | nil => intro i st _; simp [fallbackLoop_nil]
  | cons m rest ih =>
    intro i st hb
    have hbi := hb i le_rfl (by simp)
    have hrec := ih (i + 1) st (fun j hj1 hj2 => hb j (by omega) (by simp; omega))
    rcases hbi with h0 | ⟨s, h0, hs⟩
    · rw [fallbackLoop_ok_none oracle now i m rest st h0]
      exact hrec
    · rw [fallbackLoop_ok_blank oracle now i m rest st s h0 hs]
      exact hrec

theorem chatStreamLoop_fst : ∀ (chunks : List String) (acc : String),
    (chatStreamLoop acc chunks).1 =
      (nonemptyCumuls acc chunks).map
        (fun t => (⟨some t, none, false⟩ : StreamEvent)) := by
  intro chunks
  induction chunks with
  | nil => intro acc; simp [chatStreamLoop, nonemptyCumuls]
  | cons c rest ih =>
    intro acc
    by_cases hc : c = ""
    · subst hc
      simp [chatStreamLoop, nonemptyCumuls, ih]
    · simp [chatStreamLoop, nonemptyCumuls, hc, ih]

theorem chatStreamLoop_snd : ∀ (chunks : List String) (acc : String),
    (chatStreamLoop acc chunks).2 = chunks.foldl (fun a c => a ++ c) acc := by
  intro chunks
  induction chunks with
  | nil => intro acc; simp [chatStreamLoop]
  | cons c rest ih =>
    intro acc
    by_cases hc : c = ""
    · subst hc
      simp [chatStreamLoop, ih]
    · simp [chatStreamLoop, hc, ih]

theorem nonemptyCumuls_eq_filtered : ∀ (chunks : List String) (acc : String),
    nonemptyCumuls acc chunks =
      (chunks.zip (cumulativeTotals acc chunks)).filterMap
        (fun p => if p.1 ≠ "" then some p.2 else none) := by
  intro chunks
  induction chunks with
  | nil => intro acc; simp [nonemptyCumuls, cumulativeTotals]
  | cons c rest ih =>
    intro acc
    by_cases hc : c = ""
    · subst hc
      simp [nonemptyCumuls, cumulativeTotals, ih]
    · simp [nonemptyCumuls, cumulativeTotals, hc, ih]

theorem nonemptyCumuls_extends_chain : ∀ (chunks : List String) (acc : String),
    (∀ t ∈ nonemptyCumuls acc chunks, ∃ s, s ≠ "" ∧ t = acc ++ s) ∧
    List.Chain' (fun a b => ∃ s, s ≠ "" ∧ b = a ++ s) (nonemptyCumuls acc chunks) := by
  intro chunks
  induction chunks with
  | nil => intro acc; simp [nonemptyCumuls]
  | cons c rest ih =>
    intro acc
    by_cases hc : c = ""
    · subst hc
      simpa [nonemptyCumuls] using ih acc
    · obtain ⟨ihmem, ihchain⟩ := ih (acc ++ c)
      constructor
      · intro t ht
        simp only [nonemptyCumuls, hc, ne_eq, not_false_iff, if_true, ite_true,
          List.mem_cons] at ht
        rcases ht with rfl | ht
        · exact ⟨c, hc, rfl⟩
        · obtain ⟨s, hs, rfl⟩ := ihmem t ht
          exact ⟨c ++ s, append_ne_empty_left c s hc, String.append_assoc acc c s⟩
      · have hgoal : nonemptyCumuls acc (c :: rest) =
            (acc ++ c) :: nonemptyCumuls (acc ++ c) rest := by
          simp [nonemptyCumuls, hc]
        rw [hgoal, List.chain'_cons']
        refine ⟨?_, ihchain⟩
        intro b hb
        exact ihmem b (List.mem_of_mem_head? hb)

theorem bytesToSamples_length : ∀ l : List Nat, (bytesToSamples l).length = l.length / 2
  | [] => by simp [bytesToSamples]
  | [x] => by simp [bytesToSamples]
  | _lo :: _hi :: rest => by
    simp only [bytesToSamples, List.length_cons]
    rw [bytesToSamples_length rest]
    omega

theorem toInt16_encode (s : Int) (h1 : -32768 ≤ s) (h2 : s ≤ 32767) :
    toInt16 ((s % 65536).toNat % 256) ((s % 65536).toNat / 256) = s := by
  simp only [toInt16]
  split <;> omega

theorem encodeInt16LE_cons (s : Int) (rest : List Int) :
    encodeInt16LE (s :: rest) =
      (s % 65536).toNat % 256 :: ((s % 65536).toNat / 256 :: encodeInt16LE rest) := by
  simp [encodeInt16LE]

theorem bytesToSamples_encode : ∀ samples : List Int,
    (∀ s ∈ samples, -32768 ≤ s ∧ s ≤ 32767) →
    bytesToSamples (encodeInt16LE samples) = samples := by
  intro samples
  induction samples with
  | nil => intro _; rfl
  | cons s rest ih =>
    intro h
    have hs := h s (List.mem_cons_self s rest)
    have hrest := ih (fun x hx => h x (List.mem_cons_of_mem s hx))
    rw [encodeInt16LE_cons]
    simp only [bytesToSamples]
    rw [toInt16_encode s hs.1 hs.2, hrest]

theorem encodeInt16LE_length (samples : List Int) :
    (encodeInt16LE samples).length = 2 * samples.length := by
  induction samples with
  | nil => rfl
  | cons s rest ih =>
    rw [encodeInt16LE_cons]
    simp only [List.length_cons, ih]
    omega

theorem chat_eq_of_error (st : GladosState) (now : Nat) (oracle : Nat → GenAttempt)
    (synth : String → Nat → Except ApiError (Option String)) (e : ApiError)
    (st' : GladosState) (as : List Nat)
    (h : generateTextWithFallback st now oracle = (.error e, st', as)) :
    chat st now oracle synth =
      (⟨if isQuotaError e then QUOTA_ERROR_TEXT else GENERIC_ERROR_TEXT, none⟩, st') := by
  simp only [chat, h]

theorem chat_eq_of_ok (st : GladosState) (now : Nat) (oracle : Nat → GenAttempt)
    (synth : String → Nat → Except ApiError (Option String)) (t : String)
    (st' : GladosState) (as : List Nat)
    (h : generateTextWithFallback st now oracle = (.ok t, st', as)) :
    chat st now oracle synth = (⟨t, generateAudio synth t⟩, st') := by
  simp only [chat, h]

/-! ### Claim theorems -/

/-- C2. For every input and every behaviour of the external services,
`chat` never throws past its public boundary: it is a total function by
construction, and the two clauses below cover every outcome of the
pipeline — a thrown error is converted into in-character error text with
audio absent, with the distinct quota-exhaustion copy exactly when the
final error is quota-class (and that copy differs from the generic
copy); a produced text is returned as-is with the optional audio. -/
theorem chat_boundary_error_policy :
    (∀ (st : GladosState) (now : Nat) (oracle : Nat → GenAttempt)
       (synth : String → Nat → Except ApiError (Option String)) (e : ApiError),
        (generateTextWithFallback st now oracle).1 = .error e →
        (chat st now oracle synth).1 =
          ⟨if isQuotaError e then QUOTA_ERROR_TEXT else GENERIC_ERROR_TEXT, none⟩) ∧
    (∀ (st : GladosState) (now : Nat) (oracle : Nat → GenAttempt)
       (synth : String → Nat → Except ApiError (Option String)) (t : String),
        (generateTextWithFallback st now oracle).1 = .ok t →
        (chat st now oracle synth).1 = ⟨t, generateAudio synth t⟩) ∧
    QUOTA_ERROR_TEXT ≠ GENERIC_ERROR_TEXT := by
  refine ⟨?_, ?_, by decide⟩
  · intro st now oracle synth e h1
    rcases hG : generateTextWithFallback st now oracle with ⟨r, st', as⟩
    rw [hG] at h1
    simp only at h1
    subst h1
    rw [chat_eq_of_error st now oracle synth e st' as hG]
  · intro st now oracle synth t h1
    rcases hG : generateTextWithFallback st now oracle with ⟨r, st', as⟩
    rw [hG] at h1
    simp only at h1
    subst h1
    rw [chat_eq_of_ok st now oracle synth t st' as hG]

/-- Witness for C2 at a concrete input: with both candidate models
failing quota-class, `chat` returns the quota copy with audio absent. -/
theorem chat_boundary_error_policy_witness :
    (chat ⟨0, 0⟩ 0 allQuotaOracle failSynth).1 =
      ⟨if isQuotaError quotaErr then QUOTA_ERROR_TEXT else GENERIC_ERROR_TEXT, none⟩ :=
  chat_boundary_error_policy.1 ⟨0, 0⟩ 0 allQuotaOracle failSynth quotaErr rfl

/-- C1 counterexample. With the full candidate list (length 2, starting
at index 0) and every attempt failing quota-class, `chat` returns the
distinct quota-exhaustion copy — not the built-in refusal string the
claim announces — so the claim is false as stated (the refusal string is
reserved for the exhausted-loop path, which quota throws never reach). -/
theorem all_quota_not_refusal_cex :
    (chat ⟨0, 0⟩ 0 allQuotaOracle failSynth).1.text = QUOTA_ERROR_TEXT ∧
    QUOTA_ERROR_TEXT ≠ REFUSAL_TEXT := by
  exact ⟨rfl, by decide⟩

/-- C1 amended. For the candidate list (length N = 2), if all N
consecutive attempts fail with a quota-class error, then
`generateTextWithFallback` throws the last error, and `chat` — through
which the operation is observed — catches it and returns the
quota-exhaustion copy with audio absent, without throwing (`chat` is a
total function). -/
theorem all_quota_chat_returns_quota_copy :
    ∀ (st : GladosState) (now : Nat) (oracle : Nat → GenAttempt)
      (synth : String → Nat → Except ApiError (Option String)) (es : Nat → ApiError),
      st.currentTextModelIndex = 0 →
      (∀ i, i < textModels.length → oracle i = .error (es i) ∧ isQuotaError (es i) = true) →
      (generateTextWithFallback st now oracle).1 =
        .error (es (textModels.length - 1)) ∧
      (chat st now oracle synth).1 = ⟨QUOTA_ERROR_TEXT, none⟩ := by
  intro st now oracle synth es h0 hq
  obtain ⟨ho0, hq0⟩ := hq 0 (by simp [textModels])
  obtain ⟨ho1, hq1⟩ := hq 1 (by simp [textModels])
  have hres : st.lastModelCheck = st.lastModelCheck := rfl
  have hG : generateTextWithFallback st now oracle =
      (.error (es 1), ⟨1, st.lastModelCheck⟩, [0, 1]) := by
    unfold generateTextWithFallback
    rw [if_neg (by simp [h0])]
    show fallbackLoop oracle now st.currentTextModelIndex
      (textModels.drop st.currentTextModelIndex) st =
      (.error (es 1), ⟨1, st.lastModelCheck⟩, [0, 1])
    rw [h0]
    rw [show textModels.drop 0 = "gemini-3-flash-preview" :: ["gemini-2.5-flash"] from rfl]
    rw [fallbackLoop_error_advance oracle now 0 _ _ st (es 0) ho0 (by simp)]
    rw [fallbackLoop_error_last oracle now 1 _ _ (es 1) ho1]
  refine ⟨by rw [hG]; rfl, ?_⟩
  rw [chat_eq_of_error st now oracle synth (es 1) ⟨1, st.lastModelCheck⟩ [0, 1] (by
    simpa [textModels] using hG)]
  simp [hq1, show textModels.length - 1 = 1 from rfl]

/-- Witness for the amended C1 at a concrete input: both models failing
with the concrete quota error. -/
theorem all_quota_chat_returns_quota_copy_witness :
    (generateTextWithFallback ⟨0, 0⟩ 0 allQuotaOracle).1 =
      .error ((fun _ => quotaErr) (textModels.length - 1)) ∧
    (chat ⟨0, 0⟩ 0 allQuotaOracle failSynth).1 = ⟨QUOTA_ERROR_TEXT, none⟩ :=
  all_quota_chat_returns_quota_copy ⟨0, 0⟩ 0 allQuotaOracle failSynth
    (fun _ => quotaErr) rfl
    (fun i _ => ⟨rfl, (show isQuotaError quotaErr = true by decide)⟩)

/-- C3. The degradation-state invariant: `currentTextModelIndex` is a
valid index into the candidate list (as a natural it cannot be negative,
and it stays strictly below the list length, i.e. never exceeds
`length - 1`) — preserved by `generateTextWithFallback`, by `chat`, by
any finite sequence of `chat` calls, and by `chatStream`, for every
pattern of successes and failures of the external services. -/
theorem currentIndex_valid_invariant :
    (∀ (st : GladosState) (now : Nat) (oracle : Nat → GenAttempt),
        st.currentTextModelIndex < textModels.length →
        (generateTextWithFallback st now oracle).2.1.currentTextModelIndex <
          textModels.length) ∧
    (∀ (st : GladosState) (now : Nat) (oracle : Nat → GenAttempt)
       (synth : String → Nat → Except ApiError (Option String)),
        st.currentTextModelIndex < textModels.length →
        (chat st now oracle synth).2.currentTextModelIndex < textModels.length) ∧
    (∀ (st : GladosState)
       (calls : List (Nat × (Nat → GenAttempt) ×
         (String → Nat → Except ApiError (Option String)))),
        st.currentTextModelIndex < textModels.length →
        (chatSeq st calls).currentTextModelIndex < textModels.length) ∧
    (∀ (st : GladosState) (now : Nat) (oracle : Nat → GenAttempt)
       (synth : String → Nat → Except ApiError (Option String))
       (chunks : List String) (streamErr : Option ApiError),
        st.currentTextModelIndex < textModels.length →
        (chatStream st now oracle synth chunks streamErr).2.currentTextModelIndex <
          textModels.length) := by
  have hg : ∀ (st : GladosState) (now : Nat) (oracle : Nat → GenAttempt),
      st.currentTextModelIndex < textModels.length →
      (generateTextWithFallback st now oracle).2.1.currentTextModelIndex <
        textModels.length := by
    intro st now oracle h
    unfold generateTextWithFallback
    by_cases hc : st.currentTextModelIndex > 0 ∧ now - st.lastModelCheck > CHECK_INTERVAL
    · rw [if_pos hc]
      show (fallbackLoop oracle now (0 : Nat) (textModels.drop 0)
        ⟨0, st.lastModelCheck⟩).2.1.currentTextModelIndex < textModels.length
      exact fallbackLoop_idx_lt oracle now (textModels.drop 0) 0 ⟨0, st.lastModelCheck⟩
        (by simp [textModels]) (by simp only [List.length_drop]; omega)
    · rw [if_neg hc]
      show (fallbackLoop oracle now st.currentTextModelIndex
        (textModels.drop st.currentTextModelIndex) st).2.1.currentTextModelIndex <
        textModels.length
      exact fallbackLoop_idx_lt oracle now (textModels.drop st.currentTextModelIndex)
        st.currentTextModelIndex st h (by simp only [List.length_drop]; omega)
  have hchat : ∀ (st : GladosState) (now : Nat) (oracle : Nat → GenAttempt)
      (synth : String → Nat → Except ApiError (Option String)),
      st.currentTextModelIndex < textModels.length →
      (chat st now oracle synth).2.currentTextModelIndex < textModels.length := by
    intro st now oracle synth h
    have := hg st now oracle h
    rcases hG : generateTextWithFallback st now oracle with ⟨r, st', as⟩
    rw [hG] at this
    cases r with
    | ok t => rw [chat_eq_of_ok st now oracle synth t st' as hG]; exact this
    | error e => rw [chat_eq_of_error st now oracle synth e st' as hG]; exact this
  have hseq : ∀ (st : GladosState)
      (calls : List (Nat × (Nat → GenAttempt) ×
        (String → Nat → Except ApiError (Option String)))),
      st.currentTextModelIndex < textModels.length →
      (chatSeq st calls).currentTextModelIndex < textModels.length := by
    intro st calls
    induction calls generalizing st with
    | nil => intro h; simpa [chatSeq] using h
    | cons c rest ih =>
      intro h
      rcases c with ⟨now, oracle, synth⟩
      simp only [chatSeq]
      exact ih (chat st now oracle synth).2 (hchat st now oracle synth h)
  refine ⟨hg, hchat, hseq, ?_⟩
  intro st now oracle synth chunks streamErr h
  cases streamErr with
  | none => simpa [chatStream] using h
  | some e =>
    simpa [chatStream] using hchat st now oracle synth h

/-- Witness for C3 at a concrete input: a two-call sequence on a state
with index 1 and quota failures everywhere keeps the index valid. -/
theorem currentIndex_valid_invariant_witness :
    (chatSeq ⟨1, 0⟩ [(0, allQuotaOracle, failSynth),
      (70000, allBlankOracle, failSynth)]).currentTextModelIndex <
      textModels.length :=
  currentIndex_valid_invariant.2.2.1 ⟨1, 0⟩
    [(0, allQuotaOracle, failSynth), (70000, allBlankOracle, failSynth)] (by decide)

/-- C4. Cool-down promotion: whenever `currentTextModelIndex > 0` and the
call happens strictly later than `lastModelCheck + CHECK_INTERVAL` (the
spec's `lastPromotionAttempt + W`), `currentTextModelIndex` is reset to 0
before any attempt, so the first model attempted is the candidate at
index 0. -/
theorem cooldown_promotes_to_index_zero :
    ∀ (st : GladosState) (now : Nat) (oracle : Nat → GenAttempt),
      0 < st.currentTextModelIndex →
      st.lastModelCheck + CHECK_INTERVAL < now →
      (generateTextWithFallback st now oracle).2.2.head? = some 0 := by
  intro st now oracle h1 h2
  unfold generateTextWithFallback
  rw [if_pos ⟨h1, by omega⟩]
  show (fallbackLoop oracle now (0 : Nat) (textModels.drop 0)
    ⟨0, st.lastModelCheck⟩).2.2.head? = some 0
  rw [show textModels.drop 0 = "gemini-3-flash-preview" :: ["gemini-2.5-flash"] from rfl]
  exact fallbackLoop_attempts_head oracle now 0 _ _ _

/-- Witness for C4: index 1, last success at time 0, call at 60001 ms
(one past the window) — the first attempted index is 0. -/
theorem cooldown_promotes_to_index_zero_witness :
    (generateTextWithFallback ⟨1, 0⟩ 60001 allBlankOracle).2.2.head? = some 0 :=
  cooldown_promotes_to_index_zero ⟨1, 0⟩ 60001 allBlankOracle (by decide) (by decide)

/-- C5. Speech-synthesis retry policy (budget 1, base 500 ms): after a
first quota-class failure, exactly one retry occurs (the slept-delay
list is exactly `[500]`, one 500 ms back-off before the second attempt)
and the call's outcome is the second attempt's outcome — so if the retry
also fails, `generateAudio` swallows the error and returns no audio;
a non-quota first failure triggers no retry and is likewise swallowed.
The final clause shows the overall reply still carries the generated
text whatever the TTS behaviour. -/
theorem tts_retry_swallow_policy :
    ∀ (synth : String → Nat → Except ApiError (Option String))
      (text : String) (e0 : ApiError),
      synth (ttsPrompt text) 0 = .error e0 →
      (isQuotaError e0 = true →
        (withRetry (synth (ttsPrompt text)) 0 1 500).2 = [500] ∧
        (withRetry (synth (ttsPrompt text)) 0 1 500).1 = synth (ttsPrompt text) 1 ∧
        (∀ e1, synth (ttsPrompt text) 1 = .error e1 →
          generateAudio synth text = none)) ∧
      (isQuotaError e0 = false →
        (withRetry (synth (ttsPrompt text)) 0 1 500).2 = [] ∧
        generateAudio synth text = none) ∧
      (∀ (st : GladosState) (now : Nat) (oracle : Nat → GenAttempt) (t : String),
        (generateTextWithFallback st now oracle).1 = .ok t →
        (chat st now oracle synth).1.text = t) := by
  intro synth text e0 h0
  have hunfold : withRetry (synth (ttsPrompt text)) 0 1 500 =
      if isQuotaError e0 then
        ((withRetry (synth (ttsPrompt text)) 1 0 1000).1,
          500 :: (withRetry (synth (ttsPrompt text)) 1 0 1000).2)
      else (.error e0, []) := by
    simp only [withRetry, h0]
  have hbase : withRetry (synth (ttsPrompt text)) 1 0 1000 =
      (synth (ttsPrompt text) 1, []) := rfl
  refine ⟨?_, ?_, ?_⟩
  · intro hq
    rw [hunfold, if_pos hq, hbase]
    refine ⟨rfl, rfl, ?_⟩
    intro e1 h1
    unfold generateAudio
    rw [hunfold, if_pos hq, hbase]
    simp only [h1]
  · intro hq
    rw [hunfold, if_neg (by simp [hq])]
    refine ⟨rfl, ?_⟩
    unfold generateAudio
    rw [hunfold, if_neg (by simp [hq])]
  · intro st now oracle t hG
    rcases hfull : generateTextWithFallback st now oracle with ⟨r, st', as⟩
    rw [hfull] at hG
    simp only at hG
    subst hG
    rw [chat_eq_of_ok st now oracle synth t st' as hfull]

/-- Witness for C5: a TTS service failing quota-class first, then with a
non-quota error — one retry with a 500 ms back-off, audio absent. -/
theorem tts_retry_swallow_policy_witness :
    (withRetry (quotaThenFailSynth (ttsPrompt "test")) 0 1 500).2 = [500] ∧
    generateAudio quotaThenFailSynth "test" = none :=
  ⟨((tts_retry_swallow_policy quotaThenFailSynth "test" quotaErr rfl).1
      (by decide)).1,
   ((tts_retry_swallow_policy quotaThenFailSynth "test" quotaErr rfl).1
      (by decide)).2.2 otherErr rfl⟩

/-- C6 counterexample. A chunk with empty text arrives, yet `chatStream`
emits no running-total event for it: the whole event sequence is the
single terminal event, so "emits the cumulative concatenation after
every chunk arrival" fails for chunk sequences containing an
empty-text chunk. -/
theorem chatStream_blank_chunk_cex :
    (chatStream ⟨0, 0⟩ 0 allQuotaOracle failSynth [""] none).1 =
      [⟨some "", none, true⟩] ∧
    emittedTexts (chatStream ⟨0, 0⟩ 0 allQuotaOracle failSynth [""] none).1 = [] := by
  exact ⟨rfl, rfl⟩

/-- C6 amended. For every finite chunk sequence, `chatStream` (absent a
stream error) leaves the state untouched and yields: one running-total
event after every chunk arrival whose text is nonempty — carrying the
cumulative concatenation at that point, skipping chunks with empty or
missing text — followed by exactly one terminal event carrying the full
accumulated text and the optional audio. The emissions are strictly
extending (never shrink or rewrite earlier content). For the chunk
sequence ["Hello", ", ", "world"] (all nonempty, the claim's instance)
the emitted texts are exactly ["Hello", "Hello, ", "Hello, world"], and
the terminal event carries "Hello, world". -/
theorem chatStream_cumulative_emissions :
    ∀ (st : GladosState) (now : Nat) (oracle : Nat → GenAttempt)
      (synth : String → Nat → Except ApiError (Option String))
      (chunks : List String),
      (chatStream st now oracle synth chunks none).2 = st ∧
      (chatStream st now oracle synth chunks none).1 =
        ((nonemptyCumuls "" chunks).map
            (fun t => (⟨some t, none, false⟩ : StreamEvent)))
          ++ [⟨some (chunks.foldl (fun a c => a ++ c) ""),
               generateAudio synth (chunks.foldl (fun a c => a ++ c) ""), true⟩] ∧
      nonemptyCumuls "" chunks =
        (chunks.zip (cumulativeTotals "" chunks)).filterMap
          (fun p => if p.1 ≠ "" then some p.2 else none) ∧
      List.Chain' (fun a b => ∃ s, s ≠ "" ∧ b = a ++ s) (nonemptyCumuls "" chunks) ∧
      (chunks = ["Hello", ", ", "world"] →
        emittedTexts (chatStream st now oracle synth chunks none).1 =
            ["Hello", "Hello, ", "Hello, world"] ∧
          (chatStream st now oracle synth chunks none).1.getLast? =
            some ⟨some "Hello, world", generateAudio synth "Hello, world", true⟩) := by
  intro st now oracle synth chunks
  refine ⟨rfl, ?_, nonemptyCumuls_eq_filtered chunks "", (nonemptyCumuls_extends_chain chunks "").2, ?_⟩
  · show (chatStreamLoop "" chunks).1 ++
        [⟨some (chatStreamLoop "" chunks).2,
          generateAudio synth (chatStreamLoop "" chunks).2, true⟩] = _
    rw [chatStreamLoop_fst chunks "", chatStreamLoop_snd chunks ""]
  · intro hch
    subst hch
    exact ⟨rfl, rfl⟩

/-- Witness for the amended C6 at the claim's concrete instance. -/
theorem chatStream_cumulative_emissions_witness :
    emittedTexts (chatStream ⟨0, 0⟩ 0 allQuotaOracle failSynth
        ["Hello", ", ", "world"] none).1 =
      ["Hello", "Hello, ", "Hello, world"] :=
  ((chatStream_cumulative_emissions ⟨0, 0⟩ 0 allQuotaOracle failSynth
      ["Hello", ", ", "world"]).2.2.2.2 rfl).1

/-- C7. If the stream fails at any point — `e` raised after the chunks in
`chunks` were delivered, including `chunks = []` for a failure before any
chunk — `chatStream` falls back to the non-streaming `chat` path: the
events are the already-emitted running totals followed by exactly one
terminal event of the same shape as a successful stream, carrying
`chat`'s text and optional audio, and the final state is `chat`'s. -/
theorem chatStream_failure_falls_back :
    ∀ (st : GladosState) (now : Nat) (oracle : Nat → GenAttempt)
      (synth : String → Nat → Except ApiError (Option String))
      (chunks : List String) (e : ApiError),
      ∃ body,
        (chatStream st now oracle synth chunks (some e)).1 =
          body ++ [⟨some (chat st now oracle synth).1.text,
                    (chat st now oracle synth).1.audioBase64, true⟩] ∧
        (∀ ev ∈ body, ev.done = false) ∧
        (chatStream st now oracle synth chunks (some e)).2 =
          (chat st now oracle synth).2 := by
  intro st now oracle synth chunks e
  refine ⟨(chatStreamLoop "" chunks).1, rfl, ?_, rfl⟩
  intro ev hev
  rw [chatStreamLoop_fst chunks ""] at hev
  simp only [List.mem_map] at hev
  obtain ⟨t, _, rfl⟩ := hev
  rfl

/-- Witness for C7: mid-stream failure after one chunk, quota failures
everywhere — the terminal event is `chat`'s quota fallback. -/
theorem chatStream_failure_falls_back_witness :
    ∃ body,
      (chatStream ⟨0, 0⟩ 0 allQuotaOracle failSynth ["Hi"] (some otherErr)).1 =
        body ++ [⟨some (chat ⟨0, 0⟩ 0 allQuotaOracle failSynth).1.text,
                  (chat ⟨0, 0⟩ 0 allQuotaOracle failSynth).1.audioBase64, true⟩] ∧
      (∀ ev ∈ body, ev.done = false) ∧
      (chatStream ⟨0, 0⟩ 0 allQuotaOracle failSynth ["Hi"] (some otherErr)).2 =
        (chat ⟨0, 0⟩ 0 allQuotaOracle failSynth).2 :=
  chatStream_failure_falls_back ⟨0, 0⟩ 0 allQuotaOracle failSynth ["Hi"] otherErr

/-- C8. A payload decoding to an odd number of raw bytes is processed by
dropping the trailing byte: the decode step yields exactly the samples
of the even-length byte run (`length / 2` of them), with no error path
(`decodePCM` is total). In particular (witness) a 5-byte payload yields
exactly 2 samples, the 5th byte discarded. -/
theorem odd_payload_truncated :
    ∀ bytes : List Nat, bytes.length % 2 = 1 →
      decodePCM bytes = decodePCM bytes.dropLast ∧
      (decodePCM bytes).length = bytes.length / 2 := by
  intro bytes h
  have hds : bytes.dropLast = bytes.take (bytes.length - 1) :=
    List.dropLast_eq_take bytes
  have h1 : evenSlice bytes = bytes.take (bytes.length - 1) := by
    unfold evenSlice
    congr 1
    omega
  have h2 : evenSlice bytes.dropLast = bytes.take (bytes.length - 1) := by
    unfold evenSlice
    rw [hds]
    have hlen : (bytes.take (bytes.length - 1)).length = bytes.length - 1 := by
      rw [List.length_take]
      omega
    rw [hlen]
    have hmod : (bytes.length - 1) % 2 = 0 := by omega
    rw [hmod, Nat.sub_zero, List.take_take]
    congr 1
    omega
  constructor
  · unfold decodePCM
    rw [h1, h2]
  · unfold decodePCM
    rw [h1]
    rw [List.length_map, bytesToSamples_length, List.length_take]
    omega

/-- Witness for C8: the 5-byte payload `[1, 0, 0, 128, 77]` decodes to
exactly 2 samples, identically to its 4-byte even prefix. -/
theorem odd_payload_truncated_witness :
    decodePCM [1, 0, 0, 128, 77] = decodePCM ([1, 0, 0, 128, 77].dropLast) ∧
    (decodePCM [1, 0, 0, 128, 77]).length = [1, 0, 0, 128, 77].length / 2 :=
  odd_payload_truncated [1, 0, 0, 128, 77] (by decide)

/-- C9. Decode round-trip: encoding any list of in-range int16 samples
as little-endian PCM bytes and running the decode step reproduces
exactly the same number of normalized samples, each equal to the
original divided by 32768. Normalized samples are rationals; every
`int16 / 32768` is a dyadic rational represented exactly by the
source's binary64 floats, so the rational equality is the
floating-point-tolerance statement made exact. -/
theorem pcm_decode_roundtrip :
    ∀ samples : List Int, (∀ s ∈ samples, -32768 ≤ s ∧ s ≤ 32767) →
      decodePCM (encodeInt16LE samples) =
        samples.map (fun s : Int => (s : ℚ) / 32768) ∧
      (decodePCM (encodeInt16LE samples)).length = samples.length := by
  intro samples h
  have he : evenSlice (encodeInt16LE samples) = encodeInt16LE samples := by
    have hlen := encodeInt16LE_length samples
    unfold evenSlice
    rw [hlen]
    have hmod : 2 * samples.length % 2 = 0 := by omega
    rw [hmod, Nat.sub_zero]
    exact List.take_of_length_le (le_of_eq hlen)
  constructor
  · unfold decodePCM
    rw [he, bytesToSamples_encode samples h]
  · unfold decodePCM
    rw [he, bytesToSamples_encode samples h, List.length_map]

/-- Witness for C9: five representative samples, including both
extremes, round-trip exactly. -/
theorem pcm_decode_roundtrip_witness :
    decodePCM (encodeInt16LE [0, 1, -1, 32767, -32768]) =
      [0, 1, -1, 32767, -32768].map (fun s : Int => (s : ℚ) / 32768) ∧
    (decodePCM (encodeInt16LE [0, 1, -1, 32767, -32768])).length =
      [0, 1, -1, 32767, -32768].length :=
  pcm_decode_roundtrip [0, 1, -1, 32767, -32768] (by decide)

/-- C10 counterexample. Two runs refute the claim as stated. First run
(state index 0): model 0 throws a non-quota error (an exception does
occur) and model 1 succeeds blank — yet the refusal string is still
returned and `currentTextModelIndex` moves to 1, so the all-successes
path is not the only refusal-producing path. Second run (state index 1,
call past the cool-down window, all models blank): the premise of the
claim holds, the refusal is returned, but the pre-loop promotion reset
changes `currentTextModelIndex` from 1 to 0 — so the index is not
always left unchanged on that path. -/
theorem refusal_error_path_cex :
    (generateTextWithFallback ⟨0, 0⟩ 0
        (fun i => if i = 0 then .error otherErr else .ok (some ""))) =
      (.ok REFUSAL_TEXT, ⟨1, 0⟩, [0, 1]) ∧
    (generateTextWithFallback ⟨1, 0⟩ 60001 allBlankOracle).2.1 =
      (⟨0, 0⟩ : GladosState) := by
  exact ⟨rfl, rfl⟩

/-- C10 amended. If every candidate model the loop can attempt succeeds
with empty (or whitespace-only or missing) text — no exception thrown —
the loop exhausts all candidates and returns the built-in refusal
string, leaving `lastModelCheck` unchanged and `currentTextModelIndex`
changed only by the pre-loop cool-down promotion reset (unchanged
whenever that reset does not fire). This loop-exhaustion path is not
the only one producing the refusal string: it is also returned when an
earlier candidate throws and the final candidate succeeds blank (see
the counterexample). -/
theorem blank_exhaustion_returns_refusal :
    ∀ (st : GladosState) (now : Nat) (oracle : Nat → GenAttempt),
      st.currentTextModelIndex < textModels.length →
      (∀ i, i < textModels.length → BlankOk (oracle i)) →
      (generateTextWithFallback st now oracle).1 = .ok REFUSAL_TEXT ∧
      (generateTextWithFallback st now oracle).2.1 =
        (if st.currentTextModelIndex > 0 ∧ now - st.lastModelCheck > CHECK_INTERVAL
         then (⟨0, st.lastModelCheck⟩ : GladosState) else st) := by
  intro st now oracle hlt hb
  unfold generateTextWithFallback
  by_cases hc : st.currentTextModelIndex > 0 ∧ now - st.lastModelCheck > CHECK_INTERVAL
  · rw [if_pos hc]
    show (fallbackLoop oracle now (0 : Nat) (textModels.drop 0)
        ⟨0, st.lastModelCheck⟩).1 = .ok REFUSAL_TEXT ∧
      (fallbackLoop oracle now (0 : Nat) (textModels.drop 0)
        ⟨0, st.lastModelCheck⟩).2.1 = ⟨0, st.lastModelCheck⟩
    exact fallbackLoop_blank oracle now (textModels.drop 0) 0 ⟨0, st.lastModelCheck⟩
      (fun j _ hj2 => hb j (by simp only [List.length_drop] at hj2; omega))
  · rw [if_neg hc]
    show (fallbackLoop oracle now st.currentTextModelIndex
        (textModels.drop st.currentTextModelIndex) st).1 = .ok REFUSAL_TEXT ∧
      (fallbackLoop oracle now st.currentTextModelIndex
        (textModels.drop st.currentTextModelIndex) st).2.1 = st
    exact fallbackLoop_blank oracle now (textModels.drop st.currentTextModelIndex)
      st.currentTextModelIndex st
      (fun j _ hj2 => hb j (by simp only [List.length_drop] at hj2; omega))

/-- Witness for the amended C10: whitespace-only successes on both
models from a fresh state — refusal returned, state untouched. -/
theorem blank_exhaustion_returns_refusal_witness :
    (generateTextWithFallback ⟨0, 0⟩ 0 allBlankOracle).1 = .ok REFUSAL_TEXT ∧
    (generateTextWithFallback ⟨0, 0⟩ 0 allBlankOracle).2.1 =
      (if (⟨0, 0⟩ : GladosState).currentTextModelIndex > 0 ∧
          0 - (⟨0, 0⟩ : GladosState).lastModelCheck > CHECK_INTERVAL
       then (⟨0, (⟨0, 0⟩ : GladosState).lastModelCheck⟩ : GladosState)
       else ⟨0, 0⟩) :=
  blank_exhaustion_returns_refusal ⟨0, 0⟩ 0 allBlankOracle (by decide)
    (fun _ _ => Or.inr ⟨"  ", rfl, rfl⟩)
